import Mathlib

/-!
Shallow embedding of the RehabFlow clinical-analysis core.

Part 1 models the transcript parser `_parse_medgemma_response` from
`modal/endpoints/medgemma_endpoint.py` (lines 288-329).  Python string
primitives are embedded over `List Char`/`String`:
`str.strip()` drops ASCII whitespace at both ends, `str.strip("*")`
drops `*` at both ends, `x in s` is substring containment,
`s.split(":", 1)[-1]` is the text after the first colon (or the whole
string when there is no colon), and the regex `(0\.\d+|1\.0)` is a
leftmost search preferring the first alternative with a greedy digit
run.  Python floats carrying confidence values are modelled as `ℚ`.
-/

namespace RehabFlow

/-- ASCII whitespace recognised by Python `str.strip()` (the common six). -/
def isPyWs (c : Char) : Bool :=
  c = ' ' || c = '\t' || c = '\n' || c = '\r' || c = '\x0b' || c = '\x0c'

/-- Drop characters satisfying `p` from both ends of a string. -/
def stripWhile (p : Char → Bool) (s : String) : String :=
  String.mk (((s.data.dropWhile p).reverse.dropWhile p).reverse)

/-- Python `s.strip()`. -/
def pyStripWs (s : String) : String := stripWhile isPyWs s

/-- Python `s.strip("*")`. -/
def stripStars (s : String) : String := stripWhile (fun c => c = '*') s

/-- Python `s.lower()` (ASCII range, which covers every marker phrase). -/
def pyLower (s : String) : String := String.mk (s.data.map Char.toLower)

/-- Worker for `splitLines`: `acc` holds the current line reversed. -/
def splitLinesAux : List Char → List Char → List String
  | [], acc => [String.mk acc.reverse]
  | '\n' :: rest, acc => String.mk acc.reverse :: splitLinesAux rest []
  | c :: rest, acc => splitLinesAux rest (c :: acc)

/-- Python `s.split("\n")`. -/
def splitLines (s : String) : List String := splitLinesAux s.data []

/-- Test whether `needle` occurs at the head of `hay`. -/
def isPrefL : List Char → List Char → Bool
  | [], _ => true
  | _ :: _, [] => false
  | a :: as, b :: bs => a = b && isPrefL as bs

/-- Test whether `needle` occurs somewhere in `hay`. -/
def containsL (needle : List Char) : List Char → Bool
  | [] => needle.isEmpty
  | b :: bs => isPrefL needle (b :: bs) || containsL needle bs

/-- Python `needle in hay` for strings. -/
def pyContains (hay needle : String) : Bool := containsL needle.data hay.data

/-- Python `line.split(":", 1)[-1]`: the text after the first colon,
or the whole line when it has no colon. -/
def afterFirstColon (s : String) : String :=
  match s.data.dropWhile (fun c => c ≠ ':') with
  | [] => s
  | _ :: rest => String.mk rest

/-- The regex class `\d` (ASCII digits). -/
def isDig (c : Char) : Bool := 48 ≤ c.toNat && c.toNat ≤ 57

/-- Numeric value of an ASCII digit character. -/
def digitVal (c : Char) : Nat := c.toNat - 48

/-- Value of a digit run, most significant first. -/
def digitsToNat (ds : List Char) : Nat :=
  ds.foldl (fun a c => 10 * a + digitVal c) 0

/-- Try the regex `(0\.\d+|1\.0)` anchored at this position: the first
alternative (greedy digit run) is preferred, and the matched text is
returned as its rational value (Python `float(match.group(1))`). -/
def confAt : List Char → Option ℚ
  | '0' :: '.' :: rest =>
      if (rest.takeWhile isDig).isEmpty then none
      else some ((digitsToNat (rest.takeWhile isDig) : ℚ) /
        (10 : ℚ) ^ (rest.takeWhile isDig).length)
  | '1' :: '.' :: '0' :: _ => some 1
  | _ => none

/-- Python `re.search(r"(0\.\d+|1\.0)", line)`: leftmost match wins. -/
def searchConf : List Char → Option ℚ
  | [] => none
  | c :: rest =>
      match confAt (c :: rest) with
      | some q => some q
      | none => searchConf rest

/-- The `current_section` variable of the parser. -/
inductive ParseSection where
  | reasoning
  | rehabPlan
deriving Repr, DecidableEq

/-- Mutable locals of `_parse_medgemma_response` while looping over lines. -/
structure ParseState where
  pc : String
  conf : ℚ
  reasoning : String
  rehab : String
  current : Option ParseSection
deriving Repr, DecidableEq

/-- The dict returned by `_parse_medgemma_response` (exactly these four
keys, in this order). -/
structure ParsedResponse where
  probable_condition : String
  confidence_score : ℚ
  reasoning : String
  rehab_plan : String
deriving Repr, DecidableEq

/-- Guard of the `"probable condition" in line_lower` branch. -/
def guardCondition (line : String) : Bool :=
  pyContains (pyStripWs (pyLower line)) "probable condition"

/-- Guard of the `"confidence" in line_lower and ("0." in line or "1.0" in line)` branch. -/
def guardConfidence (line : String) : Bool :=
  pyContains (pyStripWs (pyLower line)) "confidence" &&
    (pyContains line "0." || pyContains line "1.0")

/-- Guard of the `"clinical reasoning" in line_lower` branch. -/
def guardReasoning (line : String) : Bool :=
  pyContains (pyStripWs (pyLower line)) "clinical reasoning"

/-- Guard of the `"rehabilitation plan" in line_lower` branch. -/
def guardRehab (line : String) : Bool :=
  pyContains (pyStripWs (pyLower line)) "rehabilitation plan"

/-- One iteration of the parser's `for line in lines` loop. -/
def processLine (st : ParseState) (line : String) : ParseState :=
  if guardCondition line then
    { st with pc := stripStars (pyStripWs (afterFirstColon line)), current := none }
  else if guardConfidence line then
    { st with conf := (searchConf line.data).getD st.conf, current := none }
  else if guardReasoning line then
    { st with current := some .reasoning }
  else if guardRehab line then
    { st with current := some .rehabPlan }
  else
    match st.current with
    | some .reasoning => { st with reasoning := st.reasoning ++ line ++ "\n" }
    | some .rehabPlan => { st with rehab := st.rehab ++ line ++ "\n" }
    | none => st

/-- Initial parser state: empty condition, confidence `0.7`, empty
buffers, no active section. -/
def initParseState : ParseState := ⟨"", 7/10, "", "", none⟩

/-- Model of `_parse_medgemma_response`: split on newlines, fold the loop body,
then apply the finalisation defaults. -/
def parseMedgemmaResponse (response : String) : ParsedResponse :=
  let st := (splitLines response).foldl processLine initParseState
  { probable_condition :=
      if st.pc = "" then "Assessment pending further review" else st.pc
    confidence_score := st.conf
    reasoning := if pyStripWs st.reasoning = "" then response else pyStripWs st.reasoning
    rehab_plan := if pyStripWs st.rehab = "" then response else pyStripWs st.rehab }

/-- The canonical transcript of the spec's parser test: condition and
confidence lines, a reasoning header with two lines, a plan header with
three numbered lines. -/
def canonicalTranscript : String :=
  "**Probable Condition:** ACL Sprain\n**Confidence:** 0.82\nClinical Reasoning:\nThe exam shows laxity.\nSwelling suggests sprain.\nRehabilitation Plan:\n1. Rest and ice\n2. Gentle range of motion\n3. Progressive strengthening"

/-- A line is free of every marker the parser recognises: none of the
four branch guards fires on it. -/
def markerFree (line : String) : Prop :=
  guardCondition line = false ∧ guardConfidence line = false ∧
    guardReasoning line = false ∧ guardRehab line = false

instance (line : String) : Decidable (markerFree line) := by
  unfold markerFree; infer_instance

/-!
Part 2 models the backend services from `backend/services/ai_service.py`
and `backend/services/supabase_service.py`.  Database rows and JSON
values are embedded as `Val` (Python numbers, both int and float, are
modelled as `ℚ`); a row/dict is an association list with the first
binding of a key winning (rows built by the code never repeat keys).
The store, the storage bucket and the reply of the analysis insert are
collaborator state collected in `Db`; the inference endpoint is an
oracle mapping the outbound payload to an HTTP outcome.
-/

/-- Decimal digit character (only arguments below ten arise). -/
def digitChar (d : Nat) : Char :=
  match d with
  | 0 => '0' | 1 => '1' | 2 => '2' | 3 => '3' | 4 => '4'
  | 5 => '5' | 6 => '6' | 7 => '7' | 8 => '8' | _ => '9'

/-- Decimal digits of a natural number, most significant first. -/
def natDigs (n : Nat) : List Char :=
  if _h : n < 10 then [digitChar n]
  else natDigs (n / 10) ++ [digitChar (n % 10)]
decreasing_by exact Nat.div_lt_self (by omega) (by omega)

/-- Python `str()` of a non-negative int. -/
def natDec (n : Nat) : String := String.mk (natDigs n)

/-- Python `str()` of an int. -/
def intDec (i : Int) : String :=
  match i with
  | .ofNat n => natDec n
  | .negSucc n => "-" ++ natDec (n + 1)

/-- Rendering of a number: integral values render like Python ints;
non-integral values (floats are modelled as `ℚ`) render as a fraction,
an approximation of Python's decimal float repr that no modelled code
path reaches. -/
def numRepr (q : ℚ) : String :=
  if q.den = 1 then intDec q.num
  else intDec q.num ++ "/" ++ natDec q.den

/-- Python `sep.join(parts)`. -/
def pyJoin (sep : String) : List String → String
  | [] => ""
  | [x] => x
  | x :: y :: rest => x ++ sep ++ pyJoin sep (y :: rest)

/-- A Python/JSON value as the backend sees it. -/
inductive Val where
  | vNull
  | vBool (b : Bool)
  | vNum (q : ℚ)
  | vStr (s : String)
  | vList (xs : List Val)
  | vDict (entries : List (String × Val))

mutual

/-- Python `str()`. -/
def pyStr : Val → String
  | .vNull => "None"
  | .vBool b => if b then "True" else "False"
  | .vNum q => numRepr q
  | .vStr s => s
  | .vList xs => "[" ++ pyReprJoin xs ++ "]"
  | .vDict es => "\x7b" ++ pyReprEntries es ++ "\x7d"

/-- Python `repr()`, used for elements of containers. -/
def pyRepr : Val → String
  | .vNull => "None"
  | .vBool b => if b then "True" else "False"
  | .vNum q => numRepr q
  | .vStr s => "'" ++ s ++ "'"
  | .vList xs => "[" ++ pyReprJoin xs ++ "]"
  | .vDict es => "\x7b" ++ pyReprEntries es ++ "\x7d"

/-- Comma-joined reprs of list elements. -/
def pyReprJoin : List Val → String
  | [] => ""
  | [x] => pyRepr x
  | x :: y :: rest => pyRepr x ++ ", " ++ pyReprJoin (y :: rest)

/-- Comma-joined reprs of dict entries. -/
def pyReprEntries : List (String × Val) → String
  | [] => ""
  | [(k, v)] => "'" ++ k ++ "': " ++ pyRepr v
  | (k, v) :: e :: rest => "'" ++ k ++ "': " ++ pyRepr v ++ ", " ++ pyReprEntries (e :: rest)

end

/-- Python truthiness. -/
def pyTruthy : Val → Bool
  | .vNull => false
  | .vBool b => b
  | .vNum q => q ≠ 0
  | .vStr s => s ≠ ""
  | .vList xs => !xs.isEmpty
  | .vDict es => !es.isEmpty

/-- Truthiness of `dict.get(k)` (missing key gives falsy `None`). -/
def pyTruthyOpt : Option Val → Bool
  | some v => pyTruthy v
  | none => false

/-- A database row / JSON object body. -/
abbrev Row := List (String × Val)

/-- Python `row.get(k)`. -/
def rowGet (r : Row) (k : String) : Option Val :=
  match r with
  | [] => none
  | (k', v) :: rest => if k' = k then some v else rowGet rest k

/-- Python `row.get(k, d)`. -/
def rowGetD (r : Row) (k : String) (d : Val) : Val := (rowGet r k).getD d

/-- The SQL filter `.eq(k, v)` of the store client: the row's column
`k` holds exactly the string `v`. -/
def eqStrField (r : Row) (k v : String) : Bool :=
  match rowGet r k with
  | some (.vStr s) => s = v
  | _ => false

/-- Backend error values: FastAPI `HTTPException(status, detail)` plus
the Python exception classes the modelled code can raise. -/
inductive PyErr where
  | httpException (status : Nat) (detail : String)
  | valueError (msg : String)
  | attributeError
  | keyError (key : String)
  | typeError
deriving Repr, DecidableEq

/-- Collaborator state: the Supabase tables the pipeline reads, the
storage bucket (path to bytes), and the rows the analysis insert
returns (`response.data`). -/
structure Db where
  injury_assessments : List Row
  baseline_profiles : List Row
  user_medical_conditions : List Row
  injury_images : List Row
  storage : List (String × List Nat)
  insertReply : List Row

/-- Lookup of a blob in the storage bucket. -/
def storageGet : List (String × List Nat) → String → Option (List Nat)
  | [], _ => none
  | (p, bs) :: rest, k => if p = k then some bs else storageGet rest k

/-- Model of `validate_assessment_ownership`: select the row matching both the
assessment id and the user id (`maybe_single`); a missing row — whether
the assessment is absent or owned by someone else — raises the one
HTTP 403 `"Assessment not found or access denied"`. -/
def validateAssessmentOwnership (db : Db) (aid uid : String) : Except PyErr Row :=
  match (db.injury_assessments.filter
      (fun r => eqStrField r "id" aid && eqStrField r "user_id" uid)).head? with
  | none => .error (.httpException 403 "Assessment not found or access denied")
  | some r => .ok r

/-- Model of `fetch_baseline_profile`: the `maybe_single` row for the user, if any. -/
def fetchBaselineProfile (db : Db) (uid : String) : Option Row :=
  (db.baseline_profiles.filter (fun r => eqStrField r "user_id" uid)).head?

/-- Model of `fetch_medical_conditions`: the user's condition rows (with the
joined `medical_conditions` value as stored). -/
def fetchMedicalConditions (db : Db) (uid : String) : List Row :=
  db.user_medical_conditions.filter (fun r => eqStrField r "user_id" uid)

/-- Model of `fetch_injury_images`: image metadata rows of the assessment. -/
def fetchInjuryImages (db : Db) (aid : String) : List Row :=
  db.injury_images.filter (fun r => eqStrField r "injury_assessment_id" aid)

/-- The base64 alphabet. -/
def base64Alphabet : List Char :=
  "ABCDEFGHIJKLMNOPQRSTUVWXYZabcdefghijklmnopqrstuvwxyz0123456789+/".data

/-- Character of a 6-bit group. -/
def b64Char (i : Nat) : Char := base64Alphabet.getD i '='

/-- Python `base64.b64encode(...).decode("utf-8")` on a byte list. -/
def base64Encode : List Nat → String
  | [] => ""
  | [a] => String.mk [b64Char (a / 4), b64Char (a % 4 * 16), '=', '=']
  | [a, b] => String.mk [b64Char (a / 4), b64Char (a % 4 * 16 + b / 16),
      b64Char (b % 16 * 4), '=']
  | a :: b :: c :: rest =>
      String.mk [b64Char (a / 4), b64Char (a % 4 * 16 + b / 16),
        b64Char (b % 16 * 4 + c / 64), b64Char (c % 64)] ++ base64Encode rest

/-- Model of `download_image_as_base64`: fetch the blob at the path and encode
it; any failure inside the guarded download (missing blob, or a path
that is not even a string) raises HTTP 502 with the path in the
detail. -/
def downloadImageAsBase64 (db : Db) (storagePath : Val) : Except PyErr String :=
  match storagePath with
  | .vStr p =>
      match storageGet db.storage p with
      | some bytes => .ok (base64Encode bytes)
      | none => .error (.httpException 502
          ("Could not retrieve image from storage: " ++ pyStr storagePath))
  | _ => .error (.httpException 502
      ("Could not retrieve image from storage: " ++ pyStr storagePath))

/-- Model of `insert_clinical_analysis`: the insert returns `response.data`;
an empty reply raises HTTP 500, otherwise the first row is returned. -/
def insertClinicalAnalysis (db : Db) (_payload : Row) : Except PyErr Row :=
  match db.insertReply with
  | [] => .error (.httpException 500 "Failed to persist AI analysis result")
  | r :: _ => .ok r

/-- Python `(row.get(k) or "").strip()`: a falsy value (missing key,
`None`, empty string, ...) yields `""`; a truthy non-string raises
`AttributeError` at `.strip()`. -/
def pyOrEmptyStrip (v : Option Val) : Except PyErr String :=
  match v with
  | some x =>
      if pyTruthy x then
        match x with
        | .vStr s => .ok (pyStripWs s)
        | _ => .error .attributeError
      else .ok ""
  | none => .ok ""

/-- The `complaint_parts` list built in `run_clinical_analysis`: cause
clause, notes clause (unless it equals the sentinel placeholder),
swelling clause, mobility clause, in this order. -/
def complaintParts (assessment : Row) : Except PyErr (List String) :=
  match pyOrEmptyStrip (rowGet assessment "pain_cause") with
  | .error e => .error e
  | .ok painCause =>
      match pyOrEmptyStrip (rowGet assessment "additional_notes") with
      | .error e => .error e
      | .ok notes =>
          .ok ((if painCause = "" then [] else ["Cause: " ++ painCause]) ++
               (if notes ≠ "" ∧ notes ≠ "Advanced assessment submission"
                then ["Notes: " ++ notes] else []) ++
               (if pyTruthyOpt (rowGet assessment "visible_swelling")
                then ["Visible swelling is present."] else []) ++
               (if pyTruthyOpt (rowGet assessment "mobility_restriction")
                then ["Mobility is restricted."] else []))

/-- Python `assessment.get("pain_location", "unspecified area")`. -/
def painLocationArg (assessment : Row) : Val :=
  rowGetD assessment "pain_location" (.vStr "unspecified area")

/-- Python `assessment.get("pain_level", 5)`. -/
def painLevelArg (assessment : Row) : Val :=
  rowGetD assessment "pain_level" (.vNum 5)

/-- The `text_complaint`: the joined clauses, or the f-string
`"Pain in {pain_location}"` when no clause was produced. -/
def buildTextComplaint (assessment : Row) : Except PyErr String :=
  match complaintParts assessment with
  | .error e => .error e
  | .ok parts =>
      .ok (if parts.isEmpty then "Pain in " ++ pyStr (painLocationArg assessment)
           else pyJoin "; " parts)

/-- The name contributed by one condition row: skipped unless the
joined `medical_conditions` value is a truthy dict, in which case
`mc.get("name", "Unknown")` is appended. -/
def conditionName? (c : Row) : Option Val :=
  match rowGet c "medical_conditions" with
  | some (.vDict entries) =>
      if entries.isEmpty then none
      else some (rowGetD entries "name" (.vStr "Unknown"))
  | _ => none

/-- The flattened `condition_names` list. -/
def flattenConditionNames (conditions : List Row) : List Val :=
  conditions.filterMap conditionName?

/-- The `patient_context` dict: baseline fields when the baseline row
is truthy, plus the condition names when any exist. -/
def buildPatientContext (baseline : Option Row) (conditionNames : List Val) : Row :=
  (match baseline with
   | some b =>
       if b.isEmpty then []
       else [("occupation_type", rowGetD b "occupation_type" (.vStr "")),
             ("daily_sitting_hours", rowGetD b "daily_sitting_hours" (.vNum 0)),
             ("physical_work_level", rowGetD b "physical_work_level" (.vStr ""))]
   | none => []) ++
  (if conditionNames.isEmpty then []
   else [("medical_conditions", .vList conditionNames)])

/-- The fixed model identifier stamped on every persisted row. -/
def MODEL_VERSION : String :=
  "blip:Salesforce/blip-image-captioning-large+medgemma:google/medgemma-4b-it"

/-- Outcome of the single HTTP POST to the inference endpoint: a local
read timeout, or a response with a status code and JSON body. -/
inductive HttpOutcome where
  | timeout
  | response (status : Nat) (body : Val)

/-- The outbound JSON payload: both the single-image field (first
image, or empty) and the list field are sent, by design. -/
def buildModalPayload (imagesBase64 : List String) (textComplaint : String)
    (painLocation painLevel : Val) (patientContext : Row) : Row :=
  [("image_base64", .vStr (imagesBase64.headD "")),
   ("images_base64", .vList (imagesBase64.map .vStr)),
   ("text_complaint", .vStr textComplaint),
   ("pain_location", painLocation),
   ("pain_level", painLevel),
   ("patient_context", .vDict patientContext)]

/-- Detail of the HTTP 504 raised on a read timeout. -/
def timeoutDetail : String :=
  "AI analysis timed out. The GPU may be cold-starting. Please wait 1-2 minutes and try again."

/-- Message of the ValueError raised when no endpoint is configured. -/
def noEndpointMsg : String :=
  "MEDGEMMA_ENDPOINT is not configured. Deploy the Modal endpoint and set the URL in .env"

/-- Fixed text before the status code in the HTTP 502 detail. -/
def upstreamDetailStart : String := "AI analysis service returned an error (HTTP "

/-- Detail of the HTTP 502 raised on a non-200 upstream status: the
f-string `"AI analysis service returned an error (HTTP {code})"`. -/
def mkUpstreamDetail (code : Nat) : String :=
  upstreamDetailStart ++ natDec code ++ ")"

/-- Remove an expected leading run from a character list. -/
def dropStart : List Char → List Char → Option (List Char)
  | [], hay => some hay
  | _ :: _, [] => none
  | a :: as, b :: bs => if a = b then dropStart as bs else none

/-- Recover the numeric upstream status code from the 502 error detail. -/
def extractUpstreamCode (detail : String) : Option Nat :=
  match dropStart upstreamDetailStart.data detail.data with
  | none => none
  | some rest =>
      if (rest.takeWhile isDig).isEmpty then none
      else if rest.dropWhile isDig = [')'] then some (digitsToNat (rest.takeWhile isDig))
      else none

/-- Model of `_call_medgemma_endpoint`: an unset endpoint URL raises ValueError
before any request; otherwise exactly one POST is made (the second
component counts requests — the code performs no retry) and the
outcome is classified: read timeout to HTTP 504, a non-200 status to
HTTP 502 carrying the status in the detail, a 200 to the JSON body. -/
def callMedgemmaEndpoint (endpointUrl : String) (net : Row → HttpOutcome)
    (imagesBase64 : List String) (textComplaint : String)
    (painLocation painLevel : Val) (patientContext : Row) :
    Except PyErr Val × Nat :=
  if endpointUrl = "" then (.error (.valueError noEndpointMsg), 0)
  else
    match net (buildModalPayload imagesBase64 textComplaint painLocation
        painLevel patientContext) with
    | .timeout => (.error (.httpException 504 timeoutDetail), 1)
    | .response s body =>
        if s = 200 then (.ok body, 1)
        else (.error (.httpException 502 (mkUpstreamDetail s)), 1)

/-- Download loop of `run_clinical_analysis`: `row["image_url"]`
(KeyError when absent) then `download_image_as_base64`; the first
failure aborts. -/
def downloadAllImages (db : Db) : List Row → Except PyErr (List String)
  | [] => .ok []
  | r :: rest =>
      match rowGet r "image_url" with
      | none => .error (.keyError "image_url")
      | some path =>
          match downloadImageAsBase64 db path with
          | .error e => .error e
          | .ok b =>
              match downloadAllImages db rest with
              | .error e => .error e
              | .ok bs => .ok (b :: bs)

/-- Python iteration over a value (list elements, string characters,
dict keys); other values raise TypeError. -/
def pyIterate : Val → Option (List Val)
  | .vList xs => some xs
  | .vStr s => some (s.data.map (fun c => Val.vStr (String.mk [c])))
  | .vDict es => some (es.map (fun kv => Val.vStr kv.1))
  | _ => none

/-- The f-string `"- Image {i+1}: {cap}"`. -/
def captionLine (i : Nat) (cap : Val) : String :=
  "- Image " ++ natDec (i + 1) ++ ": " ++ pyStr cap

/-- First composition step: when `rehab_plan` is truthy it is appended
to `reasoning` under the labelled subsection (string concatenation,
TypeError on non-string operands). -/
def composeStep1 (result : Row) : Except PyErr Val :=
  if pyTruthy (rowGetD result "rehab_plan" (.vStr "")) then
    match rowGetD result "rehab_plan" (.vStr ""), rowGetD result "reasoning" (.vStr "") with
    | .vStr ps, .vStr rs => .ok (.vStr (rs ++ "\n\n## Rehabilitation Plan\n" ++ ps))
    | _, _ => .error .typeError
  else .ok (rowGetD result "reasoning" (.vStr ""))

/-- Full `full_reasoning` composition: truthy `image_captions` prepend
a labelled visual-assessment subsection via an f-string (which
stringifies whatever the current value is). -/
def composeFullReasoning (result : Row) : Except PyErr Val :=
  match composeStep1 result with
  | .error e => .error e
  | .ok fullR =>
      if pyTruthy (rowGetD result "image_captions" (.vList [])) then
        match pyIterate (rowGetD result "image_captions" (.vList [])) with
        | none => .error .typeError
        | some items =>
            .ok (.vStr ("## Visual Assessment\n" ++
              pyJoin "\n" (items.enum.map (fun ic => captionLine ic.1 ic.2)) ++
              "\n\n" ++ pyStr fullR))
      else .ok fullR

/-- The row sent to the `ai_clinical_analysis` insert, with the
copy-through defaults of `run_clinical_analysis`. -/
def analysisInsertPayload (aid : String) (result : Row) (fullReasoning : Val) : Row :=
  [("injury_assessment_id", .vStr aid),
   ("probable_condition", rowGetD result "probable_condition" (.vStr "Assessment pending")),
   ("confidence_score", rowGetD result "confidence_score" (.vNum 0)),
   ("reasoning", fullReasoning),
   ("model_version", .vStr MODEL_VERSION)]

/-- Observable side effects of one pipeline run: how many inference
POSTs were made and which analysis rows were sent to the insert. -/
structure RunLog where
  inferenceCalls : Nat
  inserted : List Row

/-- No calls, nothing persisted. -/
def emptyLog : RunLog := ⟨0, []⟩

/-- Model of `run_clinical_analysis`: ownership, context gathering, image
downloads, complaint building, the single inference call, response
post-processing, persistence.  Returns the Python result (the stored
row, or the raised exception) together with the run's side effects. -/
def runClinicalAnalysis (db : Db) (endpointUrl : String) (net : Row → HttpOutcome)
    (aid uid : String) : Except PyErr Val × RunLog :=
  match validateAssessmentOwnership db aid uid with
  | .error e => (.error e, emptyLog)
  | .ok assessment =>
    match downloadAllImages db (fetchInjuryImages db aid) with
    | .error e => (.error e, emptyLog)
    | .ok rawImages =>
      match buildTextComplaint assessment with
      | .error e => (.error e, emptyLog)
      | .ok textComplaint =>
        match callMedgemmaEndpoint endpointUrl net rawImages textComplaint
            (painLocationArg assessment) (painLevelArg assessment)
            (buildPatientContext (fetchBaselineProfile db uid)
              (flattenConditionNames (fetchMedicalConditions db uid))) with
        | (.error e, n) => (.error e, ⟨n, []⟩)
        | (.ok data, n) =>
          match data with
          | .vDict result =>
            match composeFullReasoning result with
            | .error e => (.error e, ⟨n, []⟩)
            | .ok fullReasoning =>
              match insertClinicalAnalysis db
                  (analysisInsertPayload aid result fullReasoning) with
              | .error e => (.error e, ⟨n, [analysisInsertPayload aid result fullReasoning]⟩)
              | .ok row => (.ok (.vDict row), ⟨n, [analysisInsertPayload aid result fullReasoning]⟩)
          | _ => (.error .attributeError, ⟨n, []⟩)

/-- The raw structured inference result carries a well-formed
confidence: absent, or a number inside `[0, 1]`. -/
def rawConfidenceOk (body : Val) : Prop :=
  ∀ entries, body = Val.vDict entries →
    rowGet entries "confidence_score" = none ∨
    ∃ q, rowGet entries "confidence_score" = some (.vNum q) ∧ 0 ≤ q ∧ q ≤ 1

/-- A store with one assessment `"a1"` owned by `"u1"`, no context
rows, no images, and an insert reply of one row. -/
def dbOwned : Db :=
  { injury_assessments := [[("id", .vStr "a1"), ("user_id", .vStr "u1")]]
    baseline_profiles := []
    user_medical_conditions := []
    injury_images := []
    storage := []
    insertReply := [[("id", .vStr "row1")]] }

/-- Store `dbOwned` with one image row whose blob is missing from storage. -/
def dbC7 : Db :=
  { dbOwned with injury_images :=
      [[("injury_assessment_id", .vStr "a1"), ("image_url", .vStr "img1.jpg")]] }

/-- Network oracle that always times out (never reached in its use). -/
def netAny : Row → HttpOutcome := fun _ => .timeout

/-- Network oracle answering HTTP 422. -/
def net422 : Row → HttpOutcome := fun _ => .response 422 (.vDict [])

/-- Network oracle answering a structured result with confidence 2. -/
def netOver : Row → HttpOutcome :=
  fun _ => .response 200 (.vDict [("confidence_score", .vNum 2)])

/-- Network oracle answering a structured result with confidence 1/2. -/
def netHalf : Row → HttpOutcome :=
  fun _ => .response 200 (.vDict [("confidence_score", .vNum (1/2))])

/-- C1 counterexample: on the canonical transcript the parser does NOT
return `"ACL Sprain"`: `split(":", 1)[-1].strip().strip("*")` strips
whitespace before the asterisks, so the space between `**` and the
condition name survives. -/
theorem C1_counterexample :
    (parseMedgemmaResponse canonicalTranscript).probable_condition ≠ "ACL Sprain" := by
  decide

/-- C1 (amended): on the canonical transcript the parser yields
probable_condition `" ACL Sprain"` (leading space preserved),
confidence `0.82`, reasoning the two body lines joined by a newline,
and rehab_plan the three numbered lines joined by newlines. -/
theorem C1_canonical_transcript :
    parseMedgemmaResponse canonicalTranscript =
      { probable_condition := " ACL Sprain"
        confidence_score := 82/100
        reasoning := "The exam shows laxity.\nSwelling suggests sprain."
        rehab_plan := "1. Rest and ice\n2. Gentle range of motion\n3. Progressive strengthening" } := by
  have h1 : parseMedgemmaResponse canonicalTranscript =
      { probable_condition := " ACL Sprain"
        confidence_score := (82 : ℚ) / 10 ^ 2
        reasoning := "The exam shows laxity.\nSwelling suggests sprain."
        rehab_plan := "1. Rest and ice\n2. Gentle range of motion\n3. Progressive strengthening" } := by
    rfl
  rw [h1]
  simp only [ParsedResponse.mk.injEq]
  norm_num

/-- If every line is marker-free and no section is active, the parser
loop leaves the state untouched. -/
theorem foldl_markerFree (lines : List String) (st : ParseState)
    (h : ∀ l ∈ lines, markerFree l) (hcur : st.current = none) :
    lines.foldl processLine st = st := by
  induction lines generalizing st with
  | nil => rfl
  | cons l ls ih =>
      obtain ⟨h1, h2, h3, h4⟩ := h l (List.mem_cons_self _ _)
      have hstep : processLine st l = st := by
        unfold processLine
        rw [h1, h2, h3, h4, hcur]
        simp
      rw [List.foldl_cons, hstep]
      exact ih st (fun x hx => h x (List.mem_cons_of_mem _ hx)) hcur

/-- C3: a transcript none of whose lines triggers any parser branch
yields the default condition, the default confidence `0.7`, and both
text fields falling back to the entire raw transcript; the parser does
not fail (it is a total function). -/
theorem C3_marker_free_fallback (response : String)
    (h : ∀ line ∈ splitLines response, markerFree line) :
    parseMedgemmaResponse response =
      { probable_condition := "Assessment pending further review"
        confidence_score := 7/10
        reasoning := response
        rehab_plan := response } := by
  unfold parseMedgemmaResponse
  rw [foldl_markerFree _ _ h rfl]
  rfl

/-- Witness for C3 at the concrete marker-free transcript `"hello\nworld"`. -/
theorem C3_witness :
    parseMedgemmaResponse "hello\nworld" =
      { probable_condition := "Assessment pending further review"
        confidence_score := 7/10
        reasoning := "hello\nworld"
        rehab_plan := "hello\nworld" } :=
  C3_marker_free_fallback "hello\nworld" (by decide)

/-- An ASCII digit has value below ten. -/
theorem digitVal_lt_ten {c : Char} (h : isDig c = true) : digitVal c < 10 := by
  unfold isDig at h
  simp only [Bool.and_eq_true, decide_eq_true_eq] at h
  unfold digitVal
  omega

/-- The value of a digit run is below `10 ^ length`. -/
theorem digitsToNat_lt (ds : List Char) (h : ∀ c ∈ ds, isDig c = true) :
    digitsToNat ds < 10 ^ ds.length := by
  suffices H : ∀ a, List.foldl (fun a c => 10 * a + digitVal c) a ds <
      (a + 1) * 10 ^ ds.length by
    simpa [digitsToNat] using H 0
  induction ds with
  | nil => intro a; simp
  | cons c cs ih =>
      intro a
      have hc : digitVal c < 10 := digitVal_lt_ten (h c (List.mem_cons_self _ _))
      have hrec := ih (fun x hx => h x (List.mem_cons_of_mem _ hx)) (10 * a + digitVal c)
      have h1 : (10 * a + digitVal c + 1) * 10 ^ cs.length ≤
          (a + 1) * 10 ^ (c :: cs).length := by
        have h2 : 10 * a + digitVal c + 1 ≤ 10 * (a + 1) := by omega
        calc (10 * a + digitVal c + 1) * 10 ^ cs.length
            ≤ 10 * (a + 1) * 10 ^ cs.length := Nat.mul_le_mul_right _ h2
          _ = (a + 1) * 10 ^ (c :: cs).length := by
              simp [List.length_cons, pow_succ]; ring
      calc List.foldl (fun a c => 10 * a + digitVal c) a (c :: cs)
          = List.foldl (fun a c => 10 * a + digitVal c) (10 * a + digitVal c) cs := rfl
        _ < (10 * a + digitVal c + 1) * 10 ^ cs.length := hrec
        _ ≤ (a + 1) * 10 ^ (c :: cs).length := h1

/-- Membership in `takeWhile` implies the predicate. -/
theorem mem_takeWhile_sat {p : Char → Bool} {l : List Char} {c : Char}
    (h : c ∈ l.takeWhile p) : p c = true := by
  induction l with
  | nil => simp [List.takeWhile] at h
  | cons a as ih =>
      rw [List.takeWhile] at h
      cases hp : p a with
      | false => rw [hp] at h; simp at h
      | true =>
          rw [hp] at h
          rcases List.mem_cons.mp h with h1 | h1
          · exact h1 ▸ hp
          · exact ih h1

/-- A value matched by the confidence regex lies in `[0, 1]`. -/
theorem confAt_mem_unit (cs : List Char) (q : ℚ) (h : confAt cs = some q) :
    0 ≤ q ∧ q ≤ 1 := by
  unfold confAt at h
  split at h
  · next rest =>
      split at h
      · exact absurd h (by simp)
      · next hne =>
          have hq : ((digitsToNat (rest.takeWhile isDig) : ℚ) /
              (10 : ℚ) ^ (rest.takeWhile isDig).length) = q := by
            simpa using h
          subst hq
          constructor
          · positivity
          · rw [div_le_one (by positivity)]
            have hlt := digitsToNat_lt (rest.takeWhile isDig)
              (fun c hc => mem_takeWhile_sat hc)
            calc ((digitsToNat (rest.takeWhile isDig) : ℚ))
                ≤ ((10 ^ (rest.takeWhile isDig).length : ℕ) : ℚ) := by
                  exact_mod_cast hlt.le
              _ = (10 : ℚ) ^ (rest.takeWhile isDig).length := by push_cast; ring
  · have hq : (1 : ℚ) = q := by simpa using h
    subst hq
    norm_num
  · exact absurd h (by simp)

/-- The leftmost confidence match lies in `[0, 1]`. -/
theorem searchConf_mem_unit (cs : List Char) (q : ℚ)
    (h : searchConf cs = some q) : 0 ≤ q ∧ q ≤ 1 := by
  induction cs with
  | nil => simp [searchConf] at h
  | cons c rest ih =>
      unfold searchConf at h
      cases hc : confAt (c :: rest) with
      | some q' =>
          rw [hc] at h
          have : q' = q := by simpa using h
          exact this ▸ confAt_mem_unit _ _ hc
      | none => rw [hc] at h; exact ih h

/-- One parser step keeps the confidence inside `[0, 1]`. -/
theorem processLine_conf_mem_unit (st : ParseState) (line : String)
    (h : 0 ≤ st.conf ∧ st.conf ≤ 1) :
    0 ≤ (processLine st line).conf ∧ (processLine st line).conf ≤ 1 := by
  unfold processLine
  split
  · exact h
  · split
    · cases hs : searchConf line.data with
      | none => simpa [hs] using h
      | some q => simpa [hs] using searchConf_mem_unit _ q hs
    · split
      · exact h
      · split
        · exact h
        · split <;> exact h

/-- The whole parser loop keeps the confidence inside `[0, 1]`. -/
theorem foldl_conf_mem_unit (lines : List String) (st : ParseState)
    (h : 0 ≤ st.conf ∧ st.conf ≤ 1) :
    0 ≤ (lines.foldl processLine st).conf ∧ (lines.foldl processLine st).conf ≤ 1 := by
  induction lines generalizing st with
  | nil => exact h
  | cons l ls ih => exact ih _ (processLine_conf_mem_unit st l h)

/-- C9: the transcript parser is total (it is a function returning the
four-field record), the returned probable_condition is never the empty
string, and the returned confidence always lies in `[0, 1]` (either the
`0.7` default or a regex-matched `0.<digits>` / `1.0` value). -/
theorem C9_parser_total (response : String) :
    (parseMedgemmaResponse response).probable_condition ≠ "" ∧
    0 ≤ (parseMedgemmaResponse response).confidence_score ∧
    (parseMedgemmaResponse response).confidence_score ≤ 1 := by
  have hconf : (parseMedgemmaResponse response).confidence_score
      = ((splitLines response).foldl processLine initParseState).conf := rfl
  have hpc : (parseMedgemmaResponse response).probable_condition
      = (if ((splitLines response).foldl processLine initParseState).pc = ""
         then "Assessment pending further review"
         else ((splitLines response).foldl processLine initParseState).pc) := rfl
  refine ⟨?_, ?_⟩
  · rw [hpc]
    split
    · decide
    · next hne => exact hne
  · rw [hconf]
    refine foldl_conf_mem_unit _ _ ⟨?_, ?_⟩ <;>
      · show _
        norm_num [initParseState]

/-- C2: whenever no stored assessment row matches both the requested id
and the requesting owner — the assessment is absent, or it exists with
a different owner — the ownership check returns the one fixed HTTP 403
access-denied error: never a success, never a different error class. -/
theorem C2_uniform_denial (db : Db) (aid uid : String)
    (h : ∀ r ∈ db.injury_assessments,
      eqStrField r "id" aid = false ∨ eqStrField r "user_id" uid = false) :
    validateAssessmentOwnership db aid uid =
      .error (.httpException 403 "Assessment not found or access denied") := by
  unfold validateAssessmentOwnership
  have hnil : db.injury_assessments.filter
      (fun r => eqStrField r "id" aid && eqStrField r "user_id" uid) = [] := by
    rw [List.filter_eq_nil_iff]
    intro r hr
    rcases h r hr with h1 | h1 <;> simp [h1]
  rw [hnil]
  rfl

/-- Witness for C2: the assessment exists but is owned by `"u1"`, and
the intruder gets exactly the uniform 403. -/
theorem C2_witness :
    validateAssessmentOwnership dbOwned "a1" "intruder" =
      .error (.httpException 403 "Assessment not found or access denied") :=
  C2_uniform_denial dbOwned "a1" "intruder" (by decide)

/-- C4 counterexample: with no clause-producing field and
`pain_location` present as the empty string, the complaint is
`"Pain in "`, not `"Pain in unspecified area"` — the default kicks in
only when the key is absent. -/
theorem C4_counterexample :
    buildTextComplaint [("pain_location", Val.vStr "")] = .ok "Pain in " ∧
    ("Pain in " : String) ≠ "Pain in unspecified area" := by
  exact ⟨rfl, by decide⟩

/-- C4 (amended): when no complaint clause is produced the complaint is
the f-string `"Pain in " ++ str(assessment.get("pain_location",
"unspecified area"))`; in particular an absent key yields
`"Pain in unspecified area"`, and a present string value `s` (even the
empty string) yields `"Pain in " ++ s`. -/
theorem C4_no_clause_fallback (assessment : Row)
    (h : complaintParts assessment = .ok []) :
    buildTextComplaint assessment =
      .ok ("Pain in " ++ pyStr (painLocationArg assessment)) ∧
    (rowGet assessment "pain_location" = none →
      buildTextComplaint assessment = .ok "Pain in unspecified area") ∧
    (∀ s, rowGet assessment "pain_location" = some (.vStr s) →
      buildTextComplaint assessment = .ok ("Pain in " ++ s)) := by
  have hb : buildTextComplaint assessment =
      .ok ("Pain in " ++ pyStr (painLocationArg assessment)) := by
    unfold buildTextComplaint
    rw [h]
    rfl
  refine ⟨hb, ?_, ?_⟩
  · intro hn
    rw [hb]
    unfold painLocationArg rowGetD
    rw [hn]
    rfl
  · intro s hs
    rw [hb]
    unfold painLocationArg rowGetD
    rw [hs]
    simp [pyStr]

/-- Witness for C4 at the empty assessment row: no clause, no
`pain_location` key, complaint `"Pain in unspecified area"`. -/
theorem C4_witness :
    buildTextComplaint [] = .ok "Pain in unspecified area" :=
  (C4_no_clause_fallback [] rfl).2.1 rfl

/-- The join of a non-empty list is at least as long as its head. -/
theorem pyJoin_length_ge (sep : String) (p : String) (ps : List String) :
    p.length ≤ (pyJoin sep (p :: ps)).length := by
  cases ps with
  | nil => simp [pyJoin]
  | cons q qs =>
      show p.length ≤ (p ++ sep ++ pyJoin sep (q :: qs)).length
      rw [String.length_append, String.length_append]
      omega

/-- Membership in a conditional singleton pins the element down. -/
theorem mem_ite_singleton {c : Prop} [Decidable c] {x p : String}
    (h : p ∈ (if c then [x] else [])) : p = x := by
  split at h
  · simpa using h
  · simp at h

/-- Membership in a conditional singleton (negated shape). -/
theorem mem_ite_singleton2 {c : Prop} [Decidable c] {x p : String}
    (h : p ∈ (if c then [] else [x])) : p = x := by
  split at h
  · simp at h
  · simpa using h

/-- Every produced complaint clause is non-empty. -/
theorem complaintParts_parts_nonempty (assessment : Row) (parts : List String)
    (h : complaintParts assessment = .ok parts) :
    ∀ p ∈ parts, 1 ≤ p.length := by
  unfold complaintParts at h
  cases hc : pyOrEmptyStrip (rowGet assessment "pain_cause") with
  | error e => rw [hc] at h; exact absurd h (by simp)
  | ok painCause =>
      rw [hc] at h
      cases hn : pyOrEmptyStrip (rowGet assessment "additional_notes") with
      | error e => rw [hn] at h; exact absurd h (by simp)
      | ok notes =>
          rw [hn] at h
          have hp : (if painCause = "" then [] else ["Cause: " ++ painCause]) ++
              (if notes ≠ "" ∧ notes ≠ "Advanced assessment submission"
               then ["Notes: " ++ notes] else []) ++
              (if pyTruthyOpt (rowGet assessment "visible_swelling")
               then ["Visible swelling is present."] else []) ++
              (if pyTruthyOpt (rowGet assessment "mobility_restriction")
               then ["Mobility is restricted."] else []) = parts := by
            simpa using h
          intro p hmem
          rw [← hp] at hmem
          rcases List.mem_append.mp hmem with h1 | h1
          · rcases List.mem_append.mp h1 with h2 | h2
            · rcases List.mem_append.mp h2 with h3 | h3
              · have h4 : p = "Cause: " ++ painCause := mem_ite_singleton2 h3
                rw [h4, String.length_append]
                have h5 : ("Cause: " : String).length = 7 := by decide
                omega
              · have h4 : p = "Notes: " ++ notes := mem_ite_singleton h3
                rw [h4, String.length_append]
                have h5 : ("Notes: " : String).length = 7 := by decide
                omega
            · have h4 : p = "Visible swelling is present." := mem_ite_singleton h2
              rw [h4]
              decide
          · have h4 : p = "Mobility is restricted." := mem_ite_singleton h1
            rw [h4]
            decide

/-- C5: whenever the complaint builder returns (no type error), the
complaint text is non-empty, whatever fields the assessment row has. -/
theorem C5_complaint_nonempty (assessment : Row) (s : String)
    (h : buildTextComplaint assessment = .ok s) : 1 ≤ s.length := by
  unfold buildTextComplaint at h
  cases hp : complaintParts assessment with
  | error e => rw [hp] at h; exact absurd h (by simp)
  | ok parts =>
      rw [hp] at h
      have hs : (if parts.isEmpty then "Pain in " ++ pyStr (painLocationArg assessment)
                 else pyJoin "; " parts) = s := by simpa using h
      by_cases he : parts.isEmpty
      · rw [if_pos he] at hs
        rw [← hs, String.length_append]
        have : ("Pain in " : String).length = 8 := by decide
        omega
      · rcases parts with _ | ⟨p, ps⟩
        · simp at he
        · have h1 := complaintParts_parts_nonempty assessment _ hp p
            (List.mem_cons_self _ _)
          have h2 := pyJoin_length_ge "; " p ps
          rw [if_neg he] at hs
          rw [← hs]
          omega

/-- Witness for C5 at the empty assessment row. -/
theorem C5_witness : 1 ≤ ("Pain in unspecified area" : String).length :=
  C5_complaint_nonempty [] "Pain in unspecified area" rfl

/-- C10 counterexample: a condition row whose joined dict is empty —
a dict lacking a name — contributes nothing at all (the truthiness
check skips empty dicts), not the `"Unknown"` fallback. -/
theorem C10_counterexample :
    flattenConditionNames [[("medical_conditions", Val.vDict [])]] = [] ∧
    Val.vStr "Unknown" ∉ flattenConditionNames [[("medical_conditions", Val.vDict [])]] := by
  refine ⟨rfl, ?_⟩
  intro hmem
  exact List.not_mem_nil _ hmem

/-- C10 (amended): a missing `pain_level` key becomes `5` and a
missing `pain_location` key becomes `"unspecified area"`; condition
rows whose joined `medical_conditions` value is not a dict (including
an absent value) are skipped; a NON-EMPTY conditions dict lacking a
name yields `"Unknown"` (an empty dict is falsy and skipped). -/
theorem C10_request_defaults_amended :
    (∀ a : Row, rowGet a "pain_level" = none → painLevelArg a = .vNum 5) ∧
    (∀ a : Row, rowGet a "pain_location" = none →
      painLocationArg a = .vStr "unspecified area") ∧
    (∀ (r : Row) (rows : List Row),
      (∀ es, rowGet r "medical_conditions" ≠ some (.vDict es)) →
      flattenConditionNames (r :: rows) = flattenConditionNames rows) ∧
    (∀ (r : Row) (rows : List Row) (es : Row),
      rowGet r "medical_conditions" = some (.vDict es) → es ≠ [] →
      rowGet es "name" = none →
      flattenConditionNames (r :: rows) = .vStr "Unknown" :: flattenConditionNames rows) := by
  refine ⟨?_, ?_, ?_, ?_⟩
  · intro a h
    unfold painLevelArg rowGetD
    rw [h]
    rfl
  · intro a h
    unfold painLocationArg rowGetD
    rw [h]
    rfl
  · intro r rows hne
    have hnone : conditionName? r = none := by
      unfold conditionName?
      split
      · next es heq => exact absurd heq (hne es)
      · rfl
    unfold flattenConditionNames
    rw [List.filterMap_cons_none hnone]
  · intro r rows es hmc hes hname
    have hsome : conditionName? r = some (.vStr "Unknown") := by
      unfold conditionName?
      rw [hmc]
      have h1 : es.isEmpty = false := by
        cases es
        · exact absurd rfl hes
        · rfl
      show (if es.isEmpty = true then none
            else some (rowGetD es "name" (Val.vStr "Unknown"))) = some (Val.vStr "Unknown")
      rw [h1]
      unfold rowGetD
      rw [hname]
      rfl
    unfold flattenConditionNames
    rw [List.filterMap_cons_some hsome]

/-- Witness for C10: missing keys default, a non-dict condition value
is skipped, a non-empty dict without a name yields `"Unknown"`. -/
theorem C10_witness :
    painLevelArg [] = .vNum 5 ∧
    painLocationArg [] = .vStr "unspecified area" ∧
    flattenConditionNames [[("medical_conditions", Val.vStr "asthma")]] = [] ∧
    flattenConditionNames [[("medical_conditions",
      Val.vDict [("description", Val.vStr "d")])]] = [Val.vStr "Unknown"] :=
  ⟨C10_request_defaults_amended.1 [] rfl,
   C10_request_defaults_amended.2.1 [] rfl,
   C10_request_defaults_amended.2.2.1 _ [] (fun es hcon => by simp [rowGet] at hcon),
   C10_request_defaults_amended.2.2.2 _ [] _ rfl (by simp) rfl⟩

/-- A digit character decodes to its digit. -/
theorem digitVal_digitChar (d : Nat) (h : d < 10) : digitVal (digitChar d) = d := by
  interval_cases d <;> rfl

/-- A digit character is a digit. -/
theorem isDig_digitChar (d : Nat) (h : d < 10) : isDig (digitChar d) = true := by
  interval_cases d <;> rfl

/-- Every character of a decimal rendering is a digit. -/
theorem natDigs_all_digits (n : Nat) : ∀ c ∈ natDigs n, isDig c = true := by
  induction n using Nat.strong_induction_on with
  | _ n ih =>
      intro c hc
      rw [natDigs] at hc
      split at hc
      · next h =>
          rw [List.mem_singleton] at hc
          subst hc
          exact isDig_digitChar n h
      · next h =>
          rcases List.mem_append.mp hc with h1 | h1
          · exact ih (n / 10) (Nat.div_lt_self (by omega) (by omega)) c h1
          · rw [List.mem_singleton] at h1
            subst h1
            exact isDig_digitChar (n % 10) (Nat.mod_lt _ (by omega))

/-- Appending one digit shifts the decoded value. -/
theorem digitsToNat_append (xs : List Char) (c : Char) :
    digitsToNat (xs ++ [c]) = 10 * digitsToNat xs + digitVal c := by
  unfold digitsToNat
  rw [List.foldl_append]
  rfl

/-- Decoding inverts the decimal rendering. -/
theorem digitsToNat_natDigs (n : Nat) : digitsToNat (natDigs n) = n := by
  induction n using Nat.strong_induction_on with
  | _ n ih =>
      rw [natDigs]
      split
      · next h =>
          show digitsToNat [digitChar n] = n
          unfold digitsToNat
          simp [digitVal_digitChar n h]
      · next h =>
          rw [digitsToNat_append, ih (n / 10) (Nat.div_lt_self (by omega) (by omega)),
            digitVal_digitChar (n % 10) (Nat.mod_lt _ (by omega))]
          omega

/-- Lemma: `takeWhile` stops exactly at the first failing character. -/
theorem takeWhile_all_append {p : Char → Bool} (l : List Char) (c : Char)
    (rest : List Char) (hl : ∀ x ∈ l, p x = true) (hc : p c = false) :
    (l ++ c :: rest).takeWhile p = l := by
  induction l with
  | nil => simp [List.takeWhile, hc]
  | cons a as ih =>
      have ha : p a = true := hl a (List.mem_cons_self _ _)
      show (a :: (as ++ c :: rest)).takeWhile p = a :: as
      rw [List.takeWhile, ha]
      rw [ih (fun x hx => hl x (List.mem_cons_of_mem _ hx))]

/-- Lemma: `dropWhile` drops exactly the satisfying run. -/
theorem dropWhile_all_append {p : Char → Bool} (l : List Char) (c : Char)
    (rest : List Char) (hl : ∀ x ∈ l, p x = true) (hc : p c = false) :
    (l ++ c :: rest).dropWhile p = c :: rest := by
  induction l with
  | nil => simp [List.dropWhile, hc]
  | cons a as ih =>
      have ha : p a = true := hl a (List.mem_cons_self _ _)
      show (a :: (as ++ c :: rest)).dropWhile p = c :: rest
      rw [List.dropWhile, ha]
      exact ih (fun x hx => hl x (List.mem_cons_of_mem _ hx))

/-- Dropping an expected leading run succeeds and leaves the rest. -/
theorem dropStart_append (pre rest : List Char) :
    dropStart pre (pre ++ rest) = some rest := by
  induction pre with
  | nil => rfl
  | cons a as ih => simp [dropStart, ih]

/-- String concatenation concatenates the character data. -/
theorem strData_append (s t : String) : (s ++ t).data = s.data ++ t.data := by
  cases s
  cases t
  rfl

/-- A decimal rendering is never empty. -/
theorem natDigs_ne_nil (n : Nat) : (natDigs n).isEmpty = false := by
  rw [natDigs]
  split <;> simp

/-- The status code embedded in the 502 detail string can be recovered
exactly. -/
theorem extractUpstreamCode_round (code : Nat) :
    extractUpstreamCode (mkUpstreamDetail code) = some code := by
  unfold extractUpstreamCode mkUpstreamDetail
  have hd : (upstreamDetailStart ++ natDec code ++ ")").data
      = upstreamDetailStart.data ++ (natDigs code ++ [')']) := by
    rw [strData_append, strData_append]
    show upstreamDetailStart.data ++ natDigs code ++ [')']
        = upstreamDetailStart.data ++ (natDigs code ++ [')'])
    rw [List.append_assoc]
  rw [hd, dropStart_append]
  have ha := natDigs_all_digits code
  have hpar : isDig ')' = false := rfl
  show (if (List.takeWhile isDig (natDigs code ++ [')'])).isEmpty = true then none
        else if List.dropWhile isDig (natDigs code ++ [')']) = [')']
        then some (digitsToNat (List.takeWhile isDig (natDigs code ++ [')'])))
        else none) = some code
  rw [takeWhile_all_append _ _ _ ha hpar, dropWhile_all_append _ _ _ ha hpar,
    natDigs_ne_nil]
  simp [digitsToNat_natDigs]

/-- C6: with a configured endpoint the invoker makes exactly one POST
(no retry); a read timeout is reported as HTTP 504 (gateway timeout)
with the fixed cold-start detail; a non-200 response is reported as the
distinct HTTP 502 (bad gateway) whose detail carries the upstream
status code recoverably; and no 504 error equals any 502 error. -/
theorem C6_invoker_error_classes (url : String) (net : Row → HttpOutcome)
    (imgs : List String) (tc : String) (pl pv : Val) (ctx : Row)
    (hurl : url ≠ "") :
    (callMedgemmaEndpoint url net imgs tc pl pv ctx).2 = 1 ∧
    (net (buildModalPayload imgs tc pl pv ctx) = .timeout →
      (callMedgemmaEndpoint url net imgs tc pl pv ctx).1 =
        .error (.httpException 504 timeoutDetail)) ∧
    (∀ s body, net (buildModalPayload imgs tc pl pv ctx) = .response s body →
      s ≠ 200 →
      (callMedgemmaEndpoint url net imgs tc pl pv ctx).1 =
        .error (.httpException 502 (mkUpstreamDetail s)) ∧
      extractUpstreamCode (mkUpstreamDetail s) = some s) ∧
    (∀ d1 d2, (PyErr.httpException 504 d1) ≠ (PyErr.httpException 502 d2)) := by
  unfold callMedgemmaEndpoint
  rw [if_neg hurl]
  refine ⟨?_, ?_, ?_, ?_⟩
  · cases hn : net (buildModalPayload imgs tc pl pv ctx) with
    | timeout => rfl
    | response s body =>
        show ((if s = 200 then ((Except.ok body : Except PyErr Val), 1)
               else (Except.error (PyErr.httpException 502 (mkUpstreamDetail s)), 1)).2 = 1)
        by_cases hs : s = 200
        · rw [if_pos hs]
        · rw [if_neg hs]
  · intro hn
    rw [hn]
  · intro s body hn hs
    rw [hn]
    show ((if s = 200 then ((Except.ok body : Except PyErr Val), 1)
           else (Except.error (PyErr.httpException 502 (mkUpstreamDetail s)), 1)).1 =
        Except.error (PyErr.httpException 502 (mkUpstreamDetail s))) ∧
      extractUpstreamCode (mkUpstreamDetail s) = some s
    rw [if_neg hs]
    exact ⟨rfl, extractUpstreamCode_round s⟩
  · intro d1 d2 hcon
    exact absurd (PyErr.httpException.inj hcon).1 (by decide)

/-- Witness for C6: an HTTP 422 upstream response yields the 502 error,
and 422 is recoverable from its detail. -/
theorem C6_witness :
    (callMedgemmaEndpoint "https://modal.example" net422 [] "complaint"
      (Val.vStr "knee") (Val.vNum 5) []).1 =
      .error (.httpException 502 (mkUpstreamDetail 422)) ∧
    extractUpstreamCode (mkUpstreamDetail 422) = some 422 :=
  (C6_invoker_error_classes "https://modal.example" net422 [] "complaint"
    (Val.vStr "knee") (Val.vNum 5) [] (by decide)).2.2.1 422 (.vDict []) rfl
    (by decide)

/-- Every failure of the image download is a 502 (bad gateway). -/
theorem downloadImage_error_is_502 (db : Db) (path : Val) (e : PyErr)
    (h : downloadImageAsBase64 db path = .error e) :
    ∃ d, e = .httpException 502 d := by
  unfold downloadImageAsBase64 at h
  split at h
  · next p =>
      split at h
      · exact absurd h (by simp)
      · rw [Except.error.injEq] at h
        exact ⟨_, h.symm⟩
  · rw [Except.error.injEq] at h
    exact ⟨_, h.symm⟩

/-- One step of the download loop. -/
theorem downloadAllImages_cons (db : Db) (r : Row) (rest : List Row) :
    downloadAllImages db (r :: rest) =
      (match rowGet r "image_url" with
       | none => .error (.keyError "image_url")
       | some path =>
           match downloadImageAsBase64 db path with
           | .error e => .error e
           | .ok b =>
               match downloadAllImages db rest with
               | .error e => .error e
               | .ok bs => .ok (b :: bs)) := by
  rfl

/-- When every image row has a url and some download fails, the whole
download loop fails with a 502. -/
theorem downloadAll_fails (db : Db) (rows : List Row)
    (hkeys : ∀ r ∈ rows, ∃ v, rowGet r "image_url" = some v)
    (hfail : ∃ r ∈ rows, ∃ v, rowGet r "image_url" = some v ∧
      ∃ e, downloadImageAsBase64 db v = .error e) :
    ∃ d, downloadAllImages db rows = .error (.httpException 502 d) := by
  induction rows with
  | nil =>
      rcases hfail with ⟨r, hr, _⟩
      simp at hr
  | cons r rest ih =>
      obtain ⟨v, hv⟩ := hkeys r (List.mem_cons_self _ _)
      rw [downloadAllImages_cons, hv]
      show ∃ d, (match downloadImageAsBase64 db v with
            | .error e => (Except.error e : Except PyErr (List String))
            | .ok b =>
                match downloadAllImages db rest with
                | .error e => Except.error e
                | .ok bs => Except.ok (b :: bs)) =
          Except.error (PyErr.httpException 502 d)
      cases hd : downloadImageAsBase64 db v with
      | error e =>
          obtain ⟨d, hd2⟩ := downloadImage_error_is_502 db v e hd
          exact ⟨d, by rw [hd2]⟩
      | ok b =>
          rcases hfail with ⟨r', hr', v', hv', e', he'⟩
          rcases List.mem_cons.mp hr' with heq | hr'
          · subst heq
            rw [hv] at hv'
            have hvv : v = v' := Option.some.inj hv'
            rw [← hvv] at he'
            rw [hd] at he'
            exact absurd he' (by simp)
          · obtain ⟨d, hrec⟩ := ih (fun x hx => hkeys x (List.mem_cons_of_mem _ hx))
              ⟨r', hr', v', hv', e', he'⟩
            refine ⟨d, ?_⟩
            show (match downloadAllImages db rest with
                  | .error e => (Except.error e : Except PyErr (List String))
                  | .ok bs => Except.ok (b :: bs)) =
              Except.error (PyErr.httpException 502 d)
            rw [hrec]

/-- C7: when the assessment passes the ownership check, every image row
carries a url, and the download of at least one referenced image fails,
the pipeline run ends in an HTTP 502 (upstream unavailable) with the
empty run log: zero inference POSTs were made (the request was never
sent, so the failed image was not silently dropped from it) and no
analysis row was sent to the store. -/
theorem C7_download_failure_aborts (db : Db) (url : String)
    (net : Row → HttpOutcome) (aid uid : String) (a : Row)
    (hown : validateAssessmentOwnership db aid uid = .ok a)
    (hkeys : ∀ r ∈ fetchInjuryImages db aid, ∃ v, rowGet r "image_url" = some v)
    (hfail : ∃ r ∈ fetchInjuryImages db aid, ∃ v, rowGet r "image_url" = some v ∧
      ∃ e, downloadImageAsBase64 db v = .error e) :
    ∃ d, runClinicalAnalysis db url net aid uid =
      (.error (.httpException 502 d), emptyLog) := by
  obtain ⟨d, hd⟩ := downloadAll_fails db _ hkeys hfail
  refine ⟨d, ?_⟩
  unfold runClinicalAnalysis
  rw [hown, hd]

/-- Witness for C7: one image row whose blob is absent from storage
aborts the run with the 502 and the empty log. -/
theorem C7_witness :
    ∃ d, runClinicalAnalysis dbC7 "https://modal.example" netAny "a1" "u1" =
      (.error (.httpException 502 d), emptyLog) := by
  refine C7_download_failure_aborts dbC7 "https://modal.example" netAny "a1" "u1"
    [("id", .vStr "a1"), ("user_id", .vStr "u1")] rfl ?_ ?_
  · intro r hr
    have he : fetchInjuryImages dbC7 "a1" =
        [[("injury_assessment_id", Val.vStr "a1"), ("image_url", Val.vStr "img1.jpg")]] := rfl
    rw [he] at hr
    have hr2 := List.mem_singleton.mp hr
    subst hr2
    exact ⟨.vStr "img1.jpg", rfl⟩
  · refine ⟨[("injury_assessment_id", Val.vStr "a1"), ("image_url", Val.vStr "img1.jpg")],
      ?_, .vStr "img1.jpg", rfl,
      .httpException 502 "Could not retrieve image from storage: img1.jpg", rfl⟩
    have he : fetchInjuryImages dbC7 "a1" =
        [[("injury_assessment_id", Val.vStr "a1"), ("image_url", Val.vStr "img1.jpg")]] := rfl
    rw [he]
    exact List.mem_singleton.mpr rfl

/-- C8 counterexample: a structured 200 response carrying
`confidence_score = 2` is accepted by the pipeline — the run succeeds
and the persisted analysis row carries confidence 2, outside `[0, 1]`;
the pipeline performs no range validation. -/
theorem C8_counterexample :
    (runClinicalAnalysis dbOwned "https://modal.example" netOver "a1" "u1").1 =
      .ok (.vDict [("id", Val.vStr "row1")]) ∧
    rowGet ((runClinicalAnalysis dbOwned "https://modal.example" netOver
        "a1" "u1").2.inserted.headD []) "confidence_score" = some (.vNum 2) ∧
    ¬ ((2 : ℚ) ≤ 1) := by
  refine ⟨rfl, rfl, by norm_num⟩

/-- A successful invoker call means the oracle answered 200 with that
body. -/
theorem callMedgemma_ok_net (url : String) (net : Row → HttpOutcome)
    (imgs : List String) (tc : String) (pl pv : Val) (ctx : Row) (d : Val) (n : Nat)
    (h : callMedgemmaEndpoint url net imgs tc pl pv ctx = (.ok d, n)) :
    net (buildModalPayload imgs tc pl pv ctx) = .response 200 d := by
  unfold callMedgemmaEndpoint at h
  split at h
  · exact absurd (Prod.mk.inj h).1 (by simp)
  · split at h
    · exact absurd (Prod.mk.inj h).1 (by simp)
    · next s body heq =>
        split at h
        · next hs =>
            subst hs
            rw [heq, (Except.ok.inj (Prod.mk.inj h).1)]
        · exact absurd (Prod.mk.inj h).1 (by simp)

/-- The confidence entry of the insert payload is the raw value with
the `0.0` default. -/
theorem rowGet_payload_conf (aid : String) (result : Row) (fullR : Val) :
    rowGet (analysisInsertPayload aid result fullR) "confidence_score" =
      some (rowGetD result "confidence_score" (.vNum 0)) := rfl

/-- C8 (amended): the pipeline copies the raw confidence through
unvalidated (defaulting to `0.0` when missing); consequently every
persisted row's confidence lies in `[0, 1]` exactly when the raw
structured result's confidence, if present, is a number in `[0, 1]` —
which this theorem assumes of the inference oracle. -/
theorem C8_confidence_passthrough (db : Db) (url : String)
    (net : Row → HttpOutcome) (aid uid : String)
    (hnet : ∀ p s b, net p = .response s b → rawConfidenceOk b) :
    ∀ payload ∈ (runClinicalAnalysis db url net aid uid).2.inserted,
      ∃ q, rowGet payload "confidence_score" = some (.vNum q) ∧ 0 ≤ q ∧ q ≤ 1 := by
  intro payload hp
  unfold runClinicalAnalysis at hp
  split at hp
  · simp [emptyLog] at hp
  · split at hp
    · simp [emptyLog] at hp
    · split at hp
      · simp [emptyLog] at hp
      · split at hp
        · simp at hp
        · next data n heq =>
            split at hp
            · next result =>
                split at hp
                · simp at hp
                · next fullR _hcomp =>
                    have hnetp := callMedgemma_ok_net _ _ _ _ _ _ _ _ _ heq
                    have hok := hnet _ _ _ hnetp result rfl
                    have hmem : payload = analysisInsertPayload aid result fullR := by
                      split at hp <;> simpa using hp
                    subst hmem
                    rw [rowGet_payload_conf]
                    rcases hok with hnone | ⟨q, hq, h0, h1⟩
                    · refine ⟨0, ?_, le_refl 0, by norm_num⟩
                      unfold rowGetD
                      rw [hnone]
                      rfl
                    · refine ⟨q, ?_, h0, h1⟩
                      unfold rowGetD
                      rw [hq]
                      rfl
            · simp at hp

/-- Witness for C8: a run whose oracle answers a structured result with
confidence `1/2` persists a confidence inside `[0, 1]`. -/
theorem C8_witness :
    ∃ q, rowGet (analysisInsertPayload "a1"
        [("confidence_score", Val.vNum (1/2))] (Val.vStr ""))
      "confidence_score" = some (.vNum q) ∧ 0 ≤ q ∧ q ≤ 1 := by
  refine C8_confidence_passthrough dbOwned "https://modal.example" netHalf "a1" "u1" ?_
    (analysisInsertPayload "a1" [("confidence_score", Val.vNum (1/2))] (Val.vStr "")) ?_
  · intro p s b hb
    have hb2 : HttpOutcome.response 200 (.vDict [("confidence_score", Val.vNum (1/2))])
        = HttpOutcome.response s b := hb
    obtain ⟨hs, hbod⟩ := HttpOutcome.response.inj hb2
    subst hbod
    intro entries he
    have hent : [("confidence_score", Val.vNum (1/2))] = entries := Val.vDict.inj he
    subst hent
    exact Or.inr ⟨1/2, rfl, by norm_num, by norm_num⟩
  · have hrun : (runClinicalAnalysis dbOwned "https://modal.example" netHalf
        "a1" "u1").2.inserted =
        [analysisInsertPayload "a1" [("confidence_score", Val.vNum (1/2))] (Val.vStr "")] := rfl
    rw [hrun]
    exact List.mem_singleton.mpr rfl

end RehabFlow
